import Mathlib

/-!
# Verification of `mwitkow/go-suite` (`suite.go`)

A shallow embedding of the test-suite runner in `src/suite.go`.

The runner `Run(suiteT *testing.T, suite TestingSuite)` is modelled as a
function producing the sequence of observable events (hook invocations,
context-handle writes, the fatal signature-error message, the stderr
write and `os.Exit(1)` on an invalid `-testify.m` pattern).

Go semantics made explicit in the embedding:
* `t.Fatal`/`t.Skip` (and `t.Fatalf`) call `runtime.Goexit`, which
  terminates the current goroutine after running the deferred functions
  registered on it *so far*.  An "abort" flag on a hook or test body
  models such an abnormal exit.  In `Run` the teardown `defer` is
  registered only *after* `SetupSuite()` has returned, so an abort
  inside suite-setup ends `Run` with no teardown.  Inside the per-test
  closure the `defer` (after-test, teardown-test, handle restoration)
  is registered after `SetupTest`/`BeforeTest` have returned, and runs
  even when the test body aborts.
* `suiteT.Run(name, closure)` executes the closure on a fresh goroutine
  and waits for it; an abort inside the closure ends only the subtest,
  and the loop in `Run` continues.
* `os.Exit(1)` terminates the process immediately; deferred functions
  do not run.
* Go's `regexp.MatchString("^Test", name)` is `String.startsWith "Test"`,
  and a compiled pattern is modelled abstractly as a predicate on names
  together with a validity bit (whether the pattern compiles).  The
  process-wide default pattern `""` matches every string (Go regexp
  semantics of the empty pattern).
-/

namespace GoSuite

/-- The value held in the suite's `*testing.T` slot: either the
suite-level handle `suiteT` passed to `Run`, or the per-test handle
`testT` of the named subtest. -/
inductive Handle where
  | suiteLevel : Handle
  | perTest : String → Handle
deriving DecidableEq

/-- The `Suite` base struct of `suite.go`: it owns the current
`*testing.T` context. -/
structure Suite where
  t : Handle
deriving DecidableEq

/-- `func (suite *Suite) T() *testing.T { return suite.t }` -/
def Suite.T (su : Suite) : Handle := su.t

/-- `func (suite *Suite) SetT(t *testing.T) { suite.t = t }` -/
def Suite.SetT (_su : Suite) (h : Handle) : Suite := ⟨h⟩

/-- A method found by `reflect` on the suite value: its name and the
number of inputs `method.Type.NumIn()` (which counts the receiver, so a
well-formed test method has `numIn = 1`). -/
structure Method where
  name : String
  numIn : Nat
deriving DecidableEq

/-- The `-testify.m` pattern: `valid` is whether the regular expression
compiles, `matchesName` gives the semantics of the compiled expression on a
candidate name. -/
structure Pattern where
  valid : Bool
  matchesName : String → Bool

/-- The process-wide default `-testify.m` value is the empty string, and
the empty regular expression compiles and matches every string. -/
def defaultPattern : Pattern := ⟨true, fun _ => true⟩

/-- `regexp.MatchString("^Test", name)`: the name starts with the
literal prefix "Test" (the anchored pattern `^Test` matches a string
exactly when `Test` is a prefix of it).  Stated on the character lists
so that concrete instances compute. -/
def testPrefixed (name : String) : Bool := "Test".data.isPrefixOf name.data

/-- `methodFilter(name string) (bool, error)` from `suite.go`:

```
if ok, _ := regexp.MatchString("^Test", name); !ok {
    return false, nil
}
return regexp.MatchString(*matchMethod, name)
```

The `error` result is modelled as an `Option String`. -/
def methodFilter (p : Pattern) (name : String) : Bool × Option String :=
  if ¬ testPrefixed name then (false, none)
  else if p.valid then (p.matchesName name, none)
  else (false, some "error parsing regexp")

/-- A suite value as `Run` sees it: the static struct type name
(`reflect.TypeOf(suite).Elem().Name()`), the reflected method set, which
of the six optional hook interfaces the dynamic type implements, and
whether each hook or test body exits abnormally (`t.Fatal`/`t.Skip`,
i.e. `runtime.Goexit`) when invoked. -/
structure SuiteSpec where
  typeName : String
  methods : List Method
  hasSetupSuite : Bool
  hasTearDownSuite : Bool
  hasSetupTest : Bool
  hasTearDownTest : Bool
  hasBeforeTest : Bool
  hasAfterTest : Bool
  setupSuiteAborts : Bool
  setupTestAborts : String → Bool
  beforeTestAborts : String → Bool
  bodyAborts : String → Bool
  afterTestAborts : String → Bool
  tearDownTestAborts : String → Bool

/-- One observable event of a `Run` invocation.  `setT h` is a write of
`h` into the suite's context slot; the hook events record an invocation
of the corresponding optional interface, tagged with the subtest name
where the call site is inside the per-test closure; `fatalIn n msg` is
`testT.Fatalf` of `msg` inside subtest `n`; `stderrInvalidRegexp` and
`osExit c` are the invalid-pattern path of `Run`. -/
inductive Event where
  | setT : Handle → Event
  | setupSuite : Event
  | tearDownSuite : Event
  | setupTest : String → Event
  | beforeTest : String → String → Event
  | tbody : String → Event
  | fatalIn : String → String → Event
  | afterTest : String → String → Event
  | tearDownTest : String → Event
  | stderrInvalidRegexp : Event
  | osExit : Nat → Event
deriving DecidableEq

/-- Invoke an optional hook: if the interface is implemented the event
is emitted and the abnormal-exit flag of the hook is propagated. -/
def invokeHook (has aborts : Bool) (e : Event) : List Event × Bool :=
  if has then ([e], aborts) else ([], false)

/-- Sequence two trace fragments: if the first aborts (Goexit), the
second never runs. -/
def seqA : List Event × Bool → List Event × Bool → List Event × Bool
  | (es, true), _ => (es, true)
  | (es, false), (fs, b) => (es ++ fs, b)

/-- The part of the per-test closure before its `defer` statement:
`suite.SetT(testT)`, then `SetupTest()` if implemented, then
`BeforeTest(typeName, methodName)` if implemented. -/
def preTest (s : SuiteSpec) (m : Method) : List Event × Bool :=
  seqA (seqA ([Event.setT (Handle.perTest m.name)], false)
      (invokeHook s.hasSetupTest (s.setupTestAborts m.name) (Event.setupTest m.name)))
    (invokeHook s.hasBeforeTest (s.beforeTestAborts m.name)
      (Event.beforeTest s.typeName m.name))

/-- The arity check and body call of the per-test closure: if
`method.Type.NumIn() == 1` the method is invoked on the suite value,
otherwise `testT.Fatalf("suite: too many arguments to method %v", ...)`
(which aborts the closure goroutine). -/
def bodyPart (s : SuiteSpec) (m : Method) : List Event × Bool :=
  if m.numIn = 1 then ([Event.tbody m.name], s.bodyAborts m.name)
  else ([Event.fatalIn m.name ("suite: too many arguments to method " ++ m.name)], true)

/-- The deferred function of the per-test closure: `AfterTest` if
implemented, then `TearDownTest` if implemented, then
`suite.SetT(suiteT)`. -/
def deferPart (s : SuiteSpec) (m : Method) : List Event × Bool :=
  seqA (seqA
      (invokeHook s.hasAfterTest (s.afterTestAborts m.name)
        (Event.afterTest s.typeName m.name))
      (invokeHook s.hasTearDownTest (s.tearDownTestAborts m.name)
        (Event.tearDownTest m.name)))
    ([Event.setT Handle.suiteLevel], false)

/-- The closure passed to `suiteT.Run(method.Name, ...)`.  If the
pre-defer part aborts, the deferred function was never registered and
nothing else runs; otherwise the deferred function runs after the body
whether or not the body aborts. -/
def runTestClosure (s : SuiteSpec) (m : Method) : List Event :=
  if (preTest s m).2 then (preTest s m).1
  else (preTest s m).1 ++ (bodyPart s m).1 ++ (deferPart s m).1

/-- The method loop of `Run`: for each reflected method, apply
`methodFilter`; on a filter error write to stderr and `os.Exit(1)`
(second component `true` = the process exited, nothing later runs); on
a match run the subtest closure and then `suite.SetT(suiteT)`. -/
def runLoop (s : SuiteSpec) (p : Pattern) : List Method → List Event × Bool
  | [] => ([], false)
  | m :: rest =>
    let f := methodFilter p m.name
    if f.2.isSome then ([Event.stderrInvalidRegexp, Event.osExit 1], true)
    else if f.1 then
      let r := runLoop s p rest
      ((runTestClosure s m ++ [Event.setT Handle.suiteLevel]) ++ r.1, r.2)
    else runLoop s p rest

/-- The deferred function registered by `Run` after `SetupSuite` has
returned: `suite.SetT(suiteT)` then `TearDownSuite()` if implemented. -/
def suiteDefer (s : SuiteSpec) : List Event :=
  Event.setT Handle.suiteLevel ::
    (if s.hasTearDownSuite then [Event.tearDownSuite] else [])

/-- `Run(suiteT, suite)` as a trace.  The second component records
whether the process exited via `os.Exit(1)`.

The first branch: `SetupSuite()` exits abnormally (e.g. `t.Skip()`),
i.e. `runtime.Goexit` fires *before* the `defer` statement of `Run` has
executed, so neither the handle restoration nor `TearDownSuite` runs.

The exit branch: `os.Exit(1)` terminates the process without running
deferred functions. -/
def Run (s : SuiteSpec) (p : Pattern) : List Event × Bool :=
  if s.hasSetupSuite && s.setupSuiteAborts then
    (Event.setT Handle.suiteLevel ::
      (if s.hasSetupSuite then [Event.setupSuite] else []), false)
  else
    let su := if s.hasSetupSuite then [Event.setupSuite] else []
    let lp := runLoop s p s.methods
    if lp.2 then (Event.setT Handle.suiteLevel :: (su ++ lp.1), true)
    else (Event.setT Handle.suiteLevel :: (su ++ lp.1 ++ suiteDefer s), false)

/-- The event trace of one `Run` invocation. -/
def runTrace (s : SuiteSpec) (p : Pattern) : List Event := (Run s p).1

/-- Whether the `Run` invocation terminated the process via
`os.Exit(1)`. -/
def runExits (s : SuiteSpec) (p : Pattern) : Bool := (Run s p).2

/-! ## Trace observers -/

/-- The subtest a per-test event belongs to; `none` for suite-level
events and handle writes. -/
def testNameOf : Event → Option String
  | Event.setupTest n => some n
  | Event.beforeTest _ n => some n
  | Event.tbody n => some n
  | Event.fatalIn n _ => some n
  | Event.afterTest _ n => some n
  | Event.tearDownTest n => some n
  | _ => none

/-- Events that happen at suite level (outside every subtest). -/
def suiteLevelEvent : Event → Bool
  | Event.setupSuite => true
  | Event.tearDownSuite => true
  | Event.stderrInvalidRegexp => true
  | Event.osExit _ => true
  | _ => false

/-- Replay one event against the suite's context slot. -/
def applyEvent (su : Suite) : Event → Suite
  | Event.setT h => su.SetT h
  | _ => su

/-- The handle a `setT` event writes, identity otherwise. -/
def stepHandle (h : Handle) : Event → Handle
  | Event.setT h2 => h2
  | _ => h

/-- The condition the current handle must satisfy while event `e`
executes: a per-test event of subtest `n` must see the per-test handle
of `n`; a suite-level event must see the suite-level handle; and a swap
to a fresh per-test handle must start from the suite-level handle (the
previous test was restored). -/
def eventOKb (h : Handle) (e : Event) : Bool :=
  match testNameOf e with
  | some n => h == Handle.perTest n
  | none =>
    match e with
    | Event.setT (Handle.perTest _) => h == Handle.suiteLevel
    | _ => !suiteLevelEvent e || (h == Handle.suiteLevel)

/-- Every event of the trace executes with the correct current
handle. -/
def handleOKb : Handle → List Event → Bool
  | _, [] => true
  | h, e :: rest => eventOKb h e && handleOKb (stepHandle h e) rest

/-- The subtests whose closure started (the write of a fresh per-test
handle is the first action of every registered sub-unit). -/
def registeredTests (tr : List Event) : List String :=
  tr.filterMap (fun e =>
    match e with
    | Event.setT (Handle.perTest n) => some n
    | _ => none)

/-- The per-test events of subtest `n`, in trace order. -/
def testEvents (n : String) (tr : List Event) : List Event :=
  tr.filter (fun e => testNameOf e = some n)

/-! ## Closed form of the per-test closure -/

lemma invokeHook_eq (has aborts : Bool) (e : Event) :
    invokeHook has aborts e = (if has then [e] else [], has && aborts) := by
  cases has <;> cases aborts <;> rfl

lemma seqA_eq (a b : List Event × Bool) :
    seqA a b = (if a.2 then a.1 else a.1 ++ b.1, a.2 || b.2) := by
  obtain ⟨es, b1⟩ := a
  obtain ⟨fs, b2⟩ := b
  cases b1 <;> rfl

/-- Closed form of `runTestClosure`: the fresh-handle write, the
pre-defer hooks (each cut short at the first abnormal exit, in which
case the deferred function was never registered), the body or the
signature-error `Fatalf`, then the deferred hooks and the restoration
(again cut short at the first abnormal exit inside the deferred
function). -/
def closureSpec (s : SuiteSpec) (m : Method) : List Event :=
  Event.setT (Handle.perTest m.name) ::
    (if s.hasSetupTest && s.setupTestAborts m.name then [Event.setupTest m.name]
     else
       (if s.hasSetupTest then [Event.setupTest m.name] else []) ++
         (if s.hasBeforeTest && s.beforeTestAborts m.name then
            [Event.beforeTest s.typeName m.name]
          else
            (if s.hasBeforeTest then [Event.beforeTest s.typeName m.name] else []) ++
              ((if m.numIn = 1 then [Event.tbody m.name]
                else
                  [Event.fatalIn m.name
                    ("suite: too many arguments to method " ++ m.name)]) ++
                (if s.hasAfterTest && s.afterTestAborts m.name then
                   [Event.afterTest s.typeName m.name]
                 else
                   (if s.hasAfterTest then [Event.afterTest s.typeName m.name] else []) ++
                     (if s.hasTearDownTest && s.tearDownTestAborts m.name then
                        [Event.tearDownTest m.name]
                      else
                        (if s.hasTearDownTest then [Event.tearDownTest m.name] else []) ++
                          [Event.setT Handle.suiteLevel])))))

lemma runTestClosure_eq (s : SuiteSpec) (m : Method) :
    runTestClosure s m = closureSpec s m := by
  cases h1 : s.hasSetupTest <;> cases h2 : s.setupTestAborts m.name <;>
    cases h3 : s.hasBeforeTest <;> cases h4 : s.beforeTestAborts m.name <;>
    cases h5 : s.hasAfterTest <;> cases h6 : s.afterTestAborts m.name <;>
    cases h7 : s.hasTearDownTest <;> cases h8 : s.tearDownTestAborts m.name <;>
    by_cases h9 : m.numIn = 1 <;>
    simp [runTestClosure, preTest, bodyPart, deferPart, invokeHook_eq, seqA_eq,
      closureSpec, h1, h2, h3, h4, h5, h6, h7, h8, h9]

/-! ## Per-closure facts -/

lemma registeredTests_append (a b : List Event) :
    registeredTests (a ++ b) = registeredTests a ++ registeredTests b := by
  simp [registeredTests]

lemma registeredTests_closure (s : SuiteSpec) (m : Method) :
    registeredTests (closureSpec s m) = [m.name] := by
  simp [closureSpec, registeredTests, apply_ite (List.filterMap _)]

lemma testEvents_nil (n : String) : testEvents n [] = [] := rfl

lemma testEvents_append (n : String) (a b : List Event) :
    testEvents n (a ++ b) = testEvents n a ++ testEvents n b := by
  simp [testEvents]

lemma testEvents_cons (n : String) (e : Event) (tr : List Event) :
    testEvents n (e :: tr) =
      if testNameOf e = some n then e :: testEvents n tr else testEvents n tr := by
  simp [testEvents, List.filter_cons]

/-- A closure emits no per-test event of a different subtest. -/
lemma testEvents_closure_ne (s : SuiteSpec) (m : Method) (n : String)
    (hne : n ≠ m.name) : testEvents n (closureSpec s m) = [] := by
  simp [closureSpec, testEvents, testNameOf, apply_ite (List.filter _), Ne.symm hne]

/-- The per-test events of a valid-arity test whose hooks return
normally, in execution order (the body's own outcome is arbitrary). -/
lemma testEvents_closure_self (s : SuiteSpec) (m : Method)
    (h2 : s.setupTestAborts m.name = false)
    (h4 : s.beforeTestAborts m.name = false)
    (h6 : s.afterTestAborts m.name = false)
    (h8 : s.tearDownTestAborts m.name = false)
    (h9 : m.numIn = 1) :
    testEvents m.name (closureSpec s m) =
      (if s.hasSetupTest then [Event.setupTest m.name] else []) ++
      (if s.hasBeforeTest then [Event.beforeTest s.typeName m.name] else []) ++
      [Event.tbody m.name] ++
      (if s.hasAfterTest then [Event.afterTest s.typeName m.name] else []) ++
      (if s.hasTearDownTest then [Event.tearDownTest m.name] else []) := by
  simp [closureSpec, testEvents_append, testEvents_cons, testEvents_nil,
    testNameOf, h2, h4, h6, h8, h9, apply_ite (testEvents m.name)]

/-- Invariant satisfied by every event a per-test closure emits: no
suite-level event, `BeforeTest`/`AfterTest` are called with the static
struct type name and the method name, and the body runs only when the
arity is valid. -/
def closureInvb (s : SuiteSpec) (m : Method) : Event → Bool := fun e =>
  match e with
  | Event.setupSuite => false
  | Event.tearDownSuite => false
  | Event.stderrInvalidRegexp => false
  | Event.osExit _ => false
  | Event.setT h => h == Handle.perTest m.name || h == Handle.suiteLevel
  | Event.setupTest n => n == m.name
  | Event.beforeTest a b => a == s.typeName && b == m.name
  | Event.afterTest a b => a == s.typeName && b == m.name
  | Event.tearDownTest n => n == m.name
  | Event.tbody n => n == m.name && m.numIn == 1
  | Event.fatalIn n msg =>
      n == m.name &&
        msg == "suite: too many arguments to method " ++ m.name &&
        !(m.numIn == 1)

lemma closure_inv (s : SuiteSpec) (m : Method) :
    (closureSpec s m).all (closureInvb s m) = true := by
  by_cases h9 : m.numIn = 1 <;>
    simp [closureSpec, closureInvb, h9,
      apply_ite (fun l : List Event => l.all (closureInvb s m))]

/-- The `Fatalf` signature-error event is emitted whenever the arity is
wrong and the pre-defer hooks return normally. -/
lemma fatal_mem_closure (s : SuiteSpec) (m : Method)
    (h2 : s.setupTestAborts m.name = false)
    (h4 : s.beforeTestAborts m.name = false)
    (h9 : ¬ m.numIn = 1) :
    Event.fatalIn m.name ("suite: too many arguments to method " ++ m.name) ∈
      closureSpec s m := by
  simp [closureSpec, h2, h4, h9]

lemma handleOKb_append (h : Handle) (a b : List Event) :
    handleOKb h (a ++ b) =
      (handleOKb h a && handleOKb (a.foldl stepHandle h) b) := by
  induction a generalizing h with
  | nil => simp [handleOKb]
  | cons e rest ih => simp [handleOKb, ih, Bool.and_assoc]

/-- Inside a closure every event runs under the per-test handle, and
a fresh per-test handle is only installed from the suite-level one. -/
lemma handleOKb_closure (s : SuiteSpec) (m : Method) :
    handleOKb Handle.suiteLevel (closureSpec s m) = true := by
  cases h1 : s.hasSetupTest <;> cases h2 : s.setupTestAborts m.name <;>
    cases h3 : s.hasBeforeTest <;> cases h4 : s.beforeTestAborts m.name <;>
    cases h5 : s.hasAfterTest <;> cases h6 : s.afterTestAborts m.name <;>
    cases h7 : s.hasTearDownTest <;> cases h8 : s.tearDownTestAborts m.name <;>
    by_cases h9 : m.numIn = 1 <;>
    simp [closureSpec, handleOKb, eventOKb, testNameOf, suiteLevelEvent,
      stepHandle, h1, h2, h3, h4, h5, h6, h7, h8, h9]

/-- After a closure followed by the loop's `suite.SetT(suiteT)`, the
current handle is the suite-level one again, whatever happened inside
the closure. -/
lemma foldl_closure_restore (h : Handle) (tr : List Event) :
    (tr ++ [Event.setT Handle.suiteLevel]).foldl stepHandle h =
      Handle.suiteLevel := by
  simp [List.foldl_append, stepHandle]

/-! ## The method loop -/

lemma methodFilter_valid (p : Pattern) (hv : p.valid = true) (name : String) :
    methodFilter p name = (testPrefixed name && p.matchesName name, none) := by
  by_cases h : testPrefixed name <;> simp [methodFilter, hv, h]

lemma methodFilter_not_prefixed (p : Pattern) (name : String)
    (h : testPrefixed name = false) : methodFilter p name = (false, none) := by
  simp [methodFilter, h]

/-- A method is matched when its name carries the "Test" prefix and the
configured pattern accepts it. -/
def matchedb (p : Pattern) (m : Method) : Bool :=
  testPrefixed m.name && p.matchesName m.name

/-- The loop's trace under a valid pattern: for each matched method the
subtest closure followed by the loop's `suite.SetT(suiteT)`. -/
def loopSpec (s : SuiteSpec) (p : Pattern) (ms : List Method) : List Event :=
  ((ms.filter (matchedb p)).map
    (fun m => closureSpec s m ++ [Event.setT Handle.suiteLevel])).flatten

lemma runLoop_valid (s : SuiteSpec) (p : Pattern) (hv : p.valid = true) :
    ∀ ms, runLoop s p ms = (loopSpec s p ms, false) := by
  intro ms
  induction ms with
  | nil => simp [runLoop, loopSpec]
  | cons m rest ih =>
    by_cases h : matchedb p m
    · have hf := methodFilter_valid p hv m.name
      simp only [matchedb] at h
      simp [runLoop, hf, h, ih, loopSpec, List.filter_cons, matchedb,
        runTestClosure_eq]
    · have hf := methodFilter_valid p hv m.name
      simp only [matchedb] at h
      simp only [Bool.and_eq_true, not_and_or, Bool.not_eq_true] at h
      rcases h with h | h <;>
        simp [runLoop, hf, h, ih, loopSpec, List.filter_cons, matchedb]

lemma runLoop_no_prefixed (s : SuiteSpec) (p : Pattern) :
    ∀ ms, (∀ m ∈ ms, testPrefixed m.name = false) →
      runLoop s p ms = ([], false) := by
  intro ms
  induction ms with
  | nil => simp [runLoop]
  | cons m rest ih =>
    intro hall
    have h1 := hall m (by simp)
    simp [runLoop, methodFilter_not_prefixed p m.name h1,
      ih (fun m' hm' => hall m' (by simp [hm']))]

/-- With an invalid pattern, the loop hits the error exactly when it
reaches the first "Test"-prefixed method, writes to stderr and exits
the process. -/
lemma runLoop_invalid (s : SuiteSpec) (p : Pattern) (hv : p.valid = false) :
    ∀ ms, (∃ m ∈ ms, testPrefixed m.name = true) →
      runLoop s p ms = ([Event.stderrInvalidRegexp, Event.osExit 1], true) := by
  intro ms
  induction ms with
  | nil => simp
  | cons m rest ih =>
    intro hex
    by_cases h1 : testPrefixed m.name
    · simp [runLoop, methodFilter, h1, hv]
    · obtain ⟨m', hm', hp'⟩ := hex
      rcases List.mem_cons.mp hm' with rfl | hm'
      · exact absurd hp' h1
      · simp [runLoop, methodFilter_not_prefixed p m.name (by simpa using h1),
          ih ⟨m', hm', hp'⟩]

/-- The trace of a normal run (pattern valid, suite-setup returns):
bind the handle, suite-setup, the matched closures, then the deferred
restoration and suite-teardown. -/
def runSpec (s : SuiteSpec) (p : Pattern) : List Event :=
  Event.setT Handle.suiteLevel ::
    ((if s.hasSetupSuite then [Event.setupSuite] else []) ++
      loopSpec s p s.methods ++ suiteDefer s)

lemma run_valid_normal (s : SuiteSpec) (p : Pattern) (hv : p.valid = true)
    (hss : (s.hasSetupSuite && s.setupSuiteAborts) = false) :
    Run s p = (runSpec s p, false) := by
  simp [Run, hss, runLoop_valid s p hv, runSpec, List.append_assoc]

lemma run_setup_abort (s : SuiteSpec) (p : Pattern)
    (hss : (s.hasSetupSuite && s.setupSuiteAborts) = true) :
    Run s p = ([Event.setT Handle.suiteLevel, Event.setupSuite], false) := by
  rcases Bool.and_eq_true _ _ |>.mp hss with ⟨h1, h2⟩
  simp [Run, h1, h2]

lemma run_invalid (s : SuiteSpec) (p : Pattern) (hv : p.valid = false)
    (hex : ∃ m ∈ s.methods, testPrefixed m.name = true)
    (hss : (s.hasSetupSuite && s.setupSuiteAborts) = false) :
    Run s p =
      (Event.setT Handle.suiteLevel ::
        ((if s.hasSetupSuite then [Event.setupSuite] else []) ++
          [Event.stderrInvalidRegexp, Event.osExit 1]), true) := by
  simp [Run, hss, runLoop_invalid s p hv s.methods hex]

/-! ## Aggregate facts about the loop trace -/

lemma loopSpec_nil (s : SuiteSpec) (p : Pattern) : loopSpec s p [] = [] := rfl

lemma loopSpec_cons (s : SuiteSpec) (p : Pattern) (m : Method) (rest : List Method) :
    loopSpec s p (m :: rest) =
      (if matchedb p m then closureSpec s m ++ [Event.setT Handle.suiteLevel]
       else []) ++ loopSpec s p rest := by
  by_cases h : matchedb p m <;> simp [loopSpec, List.filter_cons, h]

lemma mem_loopSpec {s : SuiteSpec} {p : Pattern} {ms : List Method} {e : Event}
    (he : e ∈ loopSpec s p ms) :
    e = Event.setT Handle.suiteLevel ∨ ∃ m ∈ ms, e ∈ closureSpec s m := by
  induction ms with
  | nil => simp [loopSpec_nil] at he
  | cons m rest ih =>
    rw [loopSpec_cons] at he
    rcases List.mem_append.mp he with h | h
    · by_cases hm : matchedb p m
      · simp only [hm, if_true] at h
        rcases List.mem_append.mp h with h | h
        · exact Or.inr ⟨m, by simp, h⟩
        · left; simpa using h
      · simp [hm] at h
    · rcases ih h with h | ⟨m', hm', he'⟩
      · exact Or.inl h
      · exact Or.inr ⟨m', by simp [hm'], he'⟩

lemma testEvents_loop_nil (s : SuiteSpec) (p : Pattern) (n : String) :
    ∀ ms : List Method, (∀ m' ∈ ms, m'.name ≠ n) →
      testEvents n (loopSpec s p ms) = [] := by
  intro ms
  induction ms with
  | nil => simp [loopSpec_nil, testEvents_nil]
  | cons m rest ih =>
    intro hall
    have h1 : n ≠ m.name := Ne.symm (hall m (by simp))
    have h2 := ih (fun m' hm' => hall m' (by simp [hm']))
    by_cases hm : matchedb p m <;>
      simp [loopSpec_cons, hm, testEvents_append, testEvents_cons, testEvents_nil,
        testNameOf, testEvents_closure_ne s m n h1, h2]

/-- In a trace whose method names are distinct (as `reflect` guarantees),
the per-test events of a matched method are exactly those of its own
closure. -/
lemma testEvents_loop_self (s : SuiteSpec) (p : Pattern) (m : Method) :
    ∀ ms : List Method, m ∈ ms → (ms.map Method.name).Nodup →
      matchedb p m = true →
      testEvents m.name (loopSpec s p ms) =
        testEvents m.name (closureSpec s m) := by
  intro ms
  induction ms with
  | nil => simp
  | cons m' rest ih =>
    intro hmem hnodup hmatch
    have hnodup' : (rest.map Method.name).Nodup := (List.nodup_cons.mp hnodup).2
    rcases List.mem_cons.mp hmem with rfl | hmem'
    · have hrest : ∀ m'' ∈ rest, m''.name ≠ m.name := by
        intro m'' hm''
        have := (List.nodup_cons.mp hnodup).1
        intro hEq
        exact this (by simpa [hEq] using List.mem_map_of_mem Method.name hm'')
      simp [loopSpec_cons, hmatch, testEvents_append, testEvents_cons,
        testEvents_nil, testNameOf,
        testEvents_loop_nil s p m.name rest hrest]
    · have hne : m.name ≠ m'.name := by
        have := (List.nodup_cons.mp hnodup).1
        intro hEq
        exact this (by simpa [← hEq] using List.mem_map_of_mem Method.name hmem')
      by_cases hm' : matchedb p m' <;>
        simp [loopSpec_cons, hm', testEvents_append, testEvents_cons,
          testEvents_nil, testNameOf,
          testEvents_closure_ne s m' m.name hne,
          ih hmem' hnodup' hmatch]

lemma registeredTests_loop (s : SuiteSpec) (p : Pattern) :
    ∀ ms : List Method,
      registeredTests (loopSpec s p ms) =
        (ms.filter (matchedb p)).map Method.name := by
  intro ms
  induction ms with
  | nil => rfl
  | cons m rest ih =>
    have hsetT : ∀ tr, registeredTests (Event.setT Handle.suiteLevel :: tr) =
        registeredTests tr := by
      intro tr; simp [registeredTests, List.filterMap_cons]
    by_cases hm : matchedb p m <;>
      simp [loopSpec_cons, hm, registeredTests_append, registeredTests_closure,
        List.filter_cons, ih, hsetT]

lemma runLoop_handleOK (s : SuiteSpec) (p : Pattern) :
    ∀ ms : List Method,
      handleOKb Handle.suiteLevel (runLoop s p ms).1 = true ∧
        (runLoop s p ms).1.foldl stepHandle Handle.suiteLevel =
          Handle.suiteLevel := by
  intro ms
  induction ms with
  | nil => simp [runLoop, handleOKb]
  | cons m rest ih =>
    simp only [runLoop]
    by_cases herr : (methodFilter p m.name).2.isSome
    · simp [herr, handleOKb, eventOKb, testNameOf, suiteLevelEvent, stepHandle]
    · by_cases hok : (methodFilter p m.name).1
      · obtain ⟨ih1, ih2⟩ := ih
        have hcl : handleOKb Handle.suiteLevel (runTestClosure s m) = true := by
          rw [runTestClosure_eq]; exact handleOKb_closure s m
        simp [herr, hok, handleOKb_append, List.foldl_append, hcl, ih1, ih2,
          handleOKb, eventOKb, testNameOf, suiteLevelEvent, stepHandle]
      · simp [herr, hok, ih]

lemma methodFilter_fst_true {p : Pattern} {nm : String}
    (h : (methodFilter p nm).1 = true) :
    testPrefixed nm = true ∧ p.matchesName nm = true := by
  by_cases h1 : testPrefixed nm <;> by_cases h2 : p.valid <;>
    simp [methodFilter, h1, h2] at h ⊢ <;> tauto

/-- Every event a loop emits is the restoration write, the
error-and-exit pair, or an event of a matched method's closure. -/
lemma mem_runLoop {s : SuiteSpec} {p : Pattern} {ms : List Method} {e : Event}
    (he : e ∈ (runLoop s p ms).1) :
    e = Event.setT Handle.suiteLevel ∨ e = Event.stderrInvalidRegexp ∨
    e = Event.osExit 1 ∨
    ∃ m ∈ ms, matchedb p m = true ∧ e ∈ closureSpec s m := by
  induction ms with
  | nil => simp [runLoop] at he
  | cons m rest ih =>
    simp only [runLoop] at he
    by_cases herr : (methodFilter p m.name).2.isSome
    · simp [herr] at he
      tauto
    · by_cases hok : (methodFilter p m.name).1
      · simp only [herr, hok, Bool.false_eq_true, if_false, if_true,
          Bool.not_eq_true] at he
        rcases List.mem_append.mp he with h | h
        · rcases List.mem_append.mp h with h | h
          · rw [runTestClosure_eq] at h
            obtain ⟨ha, hb⟩ := methodFilter_fst_true hok
            exact Or.inr (Or.inr (Or.inr
              ⟨m, by simp, by simp [matchedb, ha, hb], h⟩))
          · left; simpa using h
        · rcases ih h with h | h | h | ⟨m', hm', hmt', he'⟩
          · exact Or.inl h
          · exact Or.inr (Or.inl h)
          · exact Or.inr (Or.inr (Or.inl h))
          · exact Or.inr (Or.inr (Or.inr ⟨m', by simp [hm'], hmt', he'⟩))
      · simp only [herr, hok, Bool.false_eq_true, if_false] at he
        rcases ih he with h | h | h | ⟨m', hm', hmt', he'⟩
        · exact Or.inl h
        · exact Or.inr (Or.inl h)
        · exact Or.inr (Or.inr (Or.inl h))
        · exact Or.inr (Or.inr (Or.inr ⟨m', by simp [hm'], hmt', he'⟩))

/-- Every event of a full `Run` trace is a suite-level action, a
handle write, or an event of a matched method's closure. -/
lemma mem_runTrace {s : SuiteSpec} {p : Pattern} {e : Event}
    (he : e ∈ runTrace s p) :
    e = Event.setT Handle.suiteLevel ∨ e = Event.setupSuite ∨
    e = Event.tearDownSuite ∨ e = Event.stderrInvalidRegexp ∨
    e = Event.osExit 1 ∨
    ∃ m ∈ s.methods, matchedb p m = true ∧ e ∈ closureSpec s m := by
  by_cases hab : (s.hasSetupSuite && s.setupSuiteAborts) = true
  · rw [runTrace, run_setup_abort s p hab] at he
    simp at he
    tauto
  · by_cases hlp : (runLoop s p s.methods).2 = true
    · have htr : runTrace s p = Event.setT Handle.suiteLevel ::
          ((if s.hasSetupSuite then [Event.setupSuite] else []) ++
            (runLoop s p s.methods).1) := by
        simp [runTrace, Run, hab, hlp]
      rw [htr] at he
      rcases List.mem_cons.mp he with rfl | he
      · tauto
      rcases List.mem_append.mp he with he | he
      · by_cases hsu : s.hasSetupSuite <;> simp [hsu] at he <;> tauto
      · rcases mem_runLoop he with h | h | h | h <;> tauto
    · have htr : runTrace s p = Event.setT Handle.suiteLevel ::
          ((if s.hasSetupSuite then [Event.setupSuite] else []) ++
            (runLoop s p s.methods).1 ++ suiteDefer s) := by
        simp [runTrace, Run, hab, hlp]
      rw [htr] at he
      rcases List.mem_cons.mp he with rfl | he
      · tauto
      rcases List.mem_append.mp he with he | he
      · rcases List.mem_append.mp he with he | he
        · by_cases hsu : s.hasSetupSuite <;> simp [hsu] at he <;> tauto
        · rcases mem_runLoop he with h | h | h | h <;> tauto
      · by_cases htd : s.hasTearDownSuite <;> simp [suiteDefer, htd] at he <;> tauto

lemma foldl_applyEvent (su : Suite) (tr : List Event) :
    (tr.foldl applyEvent su).t = tr.foldl stepHandle su.t := by
  induction tr generalizing su with
  | nil => rfl
  | cons e rest ih =>
    cases e <;> simp [List.foldl_cons, applyEvent, stepHandle, ih, Suite.SetT]

lemma handleOKb_suiteDefer (s : SuiteSpec) :
    handleOKb Handle.suiteLevel (suiteDefer s) = true ∧
      (suiteDefer s).foldl stepHandle Handle.suiteLevel = Handle.suiteLevel := by
  by_cases h : s.hasTearDownSuite <;>
    simp [suiteDefer, h, handleOKb, eventOKb, testNameOf, suiteLevelEvent, stepHandle]

lemma runTrace_valid_normal (s : SuiteSpec) (p : Pattern) (hv : p.valid = true)
    (hss : (s.hasSetupSuite && s.setupSuiteAborts) = false) :
    runTrace s p = runSpec s p := by
  rw [runTrace, run_valid_normal s p hv hss]

/-- In a normal run the registered sub-units are exactly the matched
methods, in method-set order. -/
lemma registeredTests_run (s : SuiteSpec) (p : Pattern) (hv : p.valid = true)
    (hss : (s.hasSetupSuite && s.setupSuiteAborts) = false) :
    registeredTests (runTrace s p) =
      (s.methods.filter (matchedb p)).map Method.name := by
  calc registeredTests (runTrace s p)
      = registeredTests (loopSpec s p s.methods) := by
        rw [runTrace_valid_normal s p hv hss]
        simp [runSpec, suiteDefer, registeredTests,
          apply_ite (List.filterMap _), List.filterMap_append]
    _ = _ := registeredTests_loop s p s.methods

/-- The current handle is correct at every step of any run, and once
the run is over (on any non-exiting path) it is the suite-level handle
again. -/
lemma run_handle_ok (s : SuiteSpec) (p : Pattern) :
    handleOKb Handle.suiteLevel (runTrace s p) = true ∧
      (runTrace s p).foldl stepHandle Handle.suiteLevel = Handle.suiteLevel := by
  by_cases hab : (s.hasSetupSuite && s.setupSuiteAborts) = true
  · rw [runTrace, run_setup_abort s p hab]
    simp [handleOKb, eventOKb, testNameOf, suiteLevelEvent, stepHandle]
  · obtain ⟨hl1, hl2⟩ := runLoop_handleOK s p s.methods
    obtain ⟨hd1, hd2⟩ := handleOKb_suiteDefer s
    by_cases hlp : (runLoop s p s.methods).2 = true
    · have htr : runTrace s p = Event.setT Handle.suiteLevel ::
          ((if s.hasSetupSuite then [Event.setupSuite] else []) ++
            (runLoop s p s.methods).1) := by
        simp [runTrace, Run, hab, hlp]
      rw [htr]
      by_cases hsu : s.hasSetupSuite <;>
        simp [hsu, handleOKb, eventOKb, testNameOf, suiteLevelEvent, stepHandle,
          handleOKb_append, List.foldl_append, hl1, hl2]
    · have htr : runTrace s p = Event.setT Handle.suiteLevel ::
          ((if s.hasSetupSuite then [Event.setupSuite] else []) ++
            (runLoop s p s.methods).1 ++ suiteDefer s) := by
        simp [runTrace, Run, hab, hlp]
      rw [htr]
      by_cases hsu : s.hasSetupSuite <;> by_cases htd : s.hasTearDownSuite <;>
        simp [hsu, htd, suiteDefer, handleOKb, eventOKb, testNameOf,
          suiteLevelEvent, stepHandle, handleOKb_append, List.foldl_append,
          hl1, hl2]

/-! ## Concrete suites, mirroring the fixtures of the repository's
test file -/

/-- The `SuiteTester` fixture: all six hooks, two test methods and one
helper method, no abnormal exits. -/
def wSuite : SuiteSpec :=
  { typeName := "SuiteTester"
    methods := [⟨"NonTestMethod", 1⟩, ⟨"TestOne", 1⟩, ⟨"TestTwo", 1⟩]
    hasSetupSuite := true, hasTearDownSuite := true
    hasSetupTest := true, hasTearDownTest := true
    hasBeforeTest := true, hasAfterTest := true
    setupSuiteAborts := false
    setupTestAborts := fun _ => false
    beforeTestAborts := fun _ => false
    bodyAborts := fun _ => false
    afterTestAborts := fun _ => false
    tearDownTestAborts := fun _ => false }

/-- The `SuiteSkipTester` fixture: `SetupSuite` calls `T().Skip()`,
`TearDownSuite` is implemented, no test methods. -/
def skipSuite : SuiteSpec :=
  { typeName := "SuiteSkipTester"
    methods := []
    hasSetupSuite := true, hasTearDownSuite := true
    hasSetupTest := false, hasTearDownTest := false
    hasBeforeTest := false, hasAfterTest := false
    setupSuiteAborts := true
    setupTestAborts := fun _ => false
    beforeTestAborts := fun _ => false
    bodyAborts := fun _ => false
    afterTestAborts := fun _ => false
    tearDownTestAborts := fun _ => false }

/-- A skip-in-suite-setup fixture that also owns a matched test
method. -/
def skipSuiteWithTest : SuiteSpec :=
  { skipSuite with methods := [⟨"TestOne", 1⟩] }

/-- The `SuiteWithBadSignature` fixture: one well-formed test and one
test method with an extra parameter (`NumIn = 2`). -/
def badSigSuite : SuiteSpec :=
  { typeName := "SuiteWithBadSignature"
    methods := [⟨"TestSomeOtherTestShouldRunAnyway", 1⟩,
                ⟨"TestSomethingWithBadSignature", 2⟩]
    hasSetupSuite := false, hasTearDownSuite := false
    hasSetupTest := false, hasTearDownTest := false
    hasBeforeTest := false, hasAfterTest := false
    setupSuiteAborts := false
    setupTestAborts := fun _ => false
    beforeTestAborts := fun _ => false
    bodyAborts := fun _ => false
    afterTestAborts := fun _ => false
    tearDownTestAborts := fun _ => false }

/-- A suite whose first reflected method is not "Test"-prefixed and
whose second is, with both suite-level hooks. -/
def cexSuite : SuiteSpec :=
  { typeName := "S"
    methods := [⟨"Helper", 1⟩, ⟨"TestOne", 1⟩]
    hasSetupSuite := true, hasTearDownSuite := true
    hasSetupTest := false, hasTearDownTest := false
    hasBeforeTest := false, hasAfterTest := false
    setupSuiteAborts := false
    setupTestAborts := fun _ => false
    beforeTestAborts := fun _ => false
    bodyAborts := fun _ => false
    afterTestAborts := fun _ => false
    tearDownTestAborts := fun _ => false }

/-- A suite with no "Test"-prefixed method at all. -/
def nonTestSuite : SuiteSpec :=
  { cexSuite with methods := [⟨"Helper", 1⟩, ⟨"NonTestMethod", 1⟩] }

/-- An invalid `-testify.m` pattern (fails to compile). -/
def badPat : Pattern := ⟨false, fun _ => false⟩

/-! ## Claims -/

/-- C1: for every suite and matched valid-arity test method whose own
hooks return normally, the per-test events of that method are exactly
test-setup (if implemented), before-test (if implemented), the body,
after-test (if implemented), test-teardown (if implemented), in that
order and exactly once each; the two trailing hooks appear whatever
the body's outcome (`bodyAborts` is unconstrained). -/
theorem per_test_hook_sequence (s : SuiteSpec) (p : Pattern) (m : Method)
    (hmem : m ∈ s.methods)
    (hnodup : (s.methods.map Method.name).Nodup)
    (hv : p.valid = true)
    (hmatch : matchedb p m = true)
    (harity : m.numIn = 1)
    (hss : (s.hasSetupSuite && s.setupSuiteAborts) = false)
    (hst : s.setupTestAborts m.name = false)
    (hbt : s.beforeTestAborts m.name = false)
    (hat : s.afterTestAborts m.name = false)
    (htt : s.tearDownTestAborts m.name = false) :
    testEvents m.name (runTrace s p) =
      (if s.hasSetupTest then [Event.setupTest m.name] else []) ++
      (if s.hasBeforeTest then [Event.beforeTest s.typeName m.name] else []) ++
      [Event.tbody m.name] ++
      (if s.hasAfterTest then [Event.afterTest s.typeName m.name] else []) ++
      (if s.hasTearDownTest then [Event.tearDownTest m.name] else []) := by
  rw [runTrace_valid_normal s p hv hss]
  simp [runSpec, suiteDefer, testEvents_append, testEvents_cons, testEvents_nil,
    testNameOf, apply_ite (testEvents m.name),
    testEvents_loop_self s p m s.methods hmem hnodup hmatch,
    testEvents_closure_self s m hst hbt hat htt harity]

/-- Witness for C1 at the `SuiteTester` fixture under the default
pattern. -/
theorem per_test_hook_sequence_w :
    matchedb defaultPattern ⟨"TestOne", 1⟩ = true ∧
    testEvents "TestOne" (runTrace wSuite defaultPattern) =
      [Event.setupTest "TestOne", Event.beforeTest "SuiteTester" "TestOne",
       Event.tbody "TestOne", Event.afterTest "SuiteTester" "TestOne",
       Event.tearDownTest "TestOne"] :=
  ⟨by decide,
    (per_test_hook_sequence wSuite defaultPattern ⟨"TestOne", 1⟩ (by decide)
        (by decide) (by decide) (by decide) (by decide) (by decide) (by decide)
        (by decide) (by decide) (by decide)).trans (by decide)⟩

/-- C2 (code bug): at the `SuiteSkipTester` fixture — `SetupSuite`
calls `T().Skip()` and `TearDownSuite` is implemented — suite-setup
runs once but suite-teardown runs zero times: the `defer` that would
run it is only registered after `SetupSuite` returns, and the
`runtime.Goexit` raised by the skip fires first.  The claim (and the
test file's own, unreachable, assertions) expect exactly one
teardown. -/
theorem skip_in_suite_setup_skips_teardown :
    (runTrace skipSuite defaultPattern).count Event.setupSuite = 1 ∧
    (runTrace skipSuite defaultPattern).count Event.tearDownSuite = 0 ∧
    runExits skipSuite defaultPattern = false := by decide

/-- C3: `methodFilter` accepts exactly the "Test"-prefixed names that
match the configured pattern; with the default (empty) pattern that is
every "Test"-prefixed name; a name without the prefix yields
`(false, nil)` under every pattern — non-participation, not an error —
and the registered sub-units of a run are exactly the matched
methods. -/
theorem method_filter_selects_executed_set (s : SuiteSpec) (p : Pattern)
    (hv : p.valid = true)
    (hss : (s.hasSetupSuite && s.setupSuiteAborts) = false) :
    (∀ name, methodFilter p name =
      (testPrefixed name && p.matchesName name, none)) ∧
    (∀ q : Pattern, ∀ name, testPrefixed name = false →
      methodFilter q name = (false, none)) ∧
    (∀ name, methodFilter defaultPattern name = (testPrefixed name, none)) ∧
    registeredTests (runTrace s p) =
      (s.methods.filter (matchedb p)).map Method.name := by
  refine ⟨methodFilter_valid p hv,
    fun q name h => methodFilter_not_prefixed q name h,
    fun name => ?_, registeredTests_run s p hv hss⟩
  simpa [defaultPattern] using methodFilter_valid defaultPattern rfl name

/-- Witness for C3 at the `SuiteTester` fixture: the two "Test"-prefixed
methods are registered, the helper is not. -/
theorem method_filter_selects_executed_set_w :
    defaultPattern.valid = true ∧
    registeredTests (runTrace wSuite defaultPattern) = ["TestOne", "TestTwo"] :=
  ⟨by decide,
    ((method_filter_selects_executed_set wSuite defaultPattern (by decide)
        (by decide)).2.2.2).trans (by decide)⟩

/-- C4: a matched method with a non-empty parameter list fails its own
sub-unit with a `Fatalf` message equal to `"suite: too many arguments
to method <Name>"` — which contains the literal substring `"too many
arguments to method <Name>"` — its body is never invoked, every
matched sub-unit is still registered, and suite-teardown still runs. -/
theorem bad_signature_fails_one_subunit (s : SuiteSpec) (p : Pattern)
    (m : Method)
    (hmem : m ∈ s.methods)
    (hnodup : (s.methods.map Method.name).Nodup)
    (hv : p.valid = true)
    (hmatch : matchedb p m = true)
    (harity : m.numIn ≠ 1)
    (hss : (s.hasSetupSuite && s.setupSuiteAborts) = false)
    (hst : s.setupTestAborts m.name = false)
    (hbt : s.beforeTestAborts m.name = false) :
    Event.fatalIn m.name ("suite: too many arguments to method " ++ m.name) ∈
      runTrace s p ∧
    ("suite: too many arguments to method " ++ m.name =
      "suite: " ++ ("too many arguments to method " ++ m.name) ++ "") ∧
    Event.tbody m.name ∉ runTrace s p ∧
    (∀ m' ∈ s.methods, matchedb p m' = true →
      m'.name ∈ registeredTests (runTrace s p)) ∧
    (s.hasTearDownSuite = true → Event.tearDownSuite ∈ runTrace s p) := by
  have htr := runTrace_valid_normal s p hv hss
  have hsub : ("suite: " : String) ++ "too many arguments to method " =
      "suite: too many arguments to method " := by decide
  refine ⟨?_, by rw [String.append_empty, ← hsub, String.append_assoc], ?_, ?_, ?_⟩
  · have hfatal : Event.fatalIn m.name
        ("suite: too many arguments to method " ++ m.name) ∈
          loopSpec s p s.methods := by
      simp only [loopSpec, List.mem_flatten]
      exact ⟨closureSpec s m ++ [Event.setT Handle.suiteLevel],
        List.mem_map_of_mem _ (List.mem_filter.mpr ⟨hmem, hmatch⟩),
        List.mem_append.mpr (Or.inl (fatal_mem_closure s m hst hbt harity))⟩
    rw [htr]
    simp only [runSpec, List.mem_cons, List.mem_append]
    tauto
  · intro hbody
    rcases mem_runTrace hbody with h | h | h | h | h | ⟨m', hm', hmt', he'⟩ <;>
      try simp at h
    have hinv := List.all_eq_true.mp (closure_inv s m') _ he'
    simp [closureInvb] at hinv
    obtain ⟨hname, hnum⟩ := hinv
    have heq : m' = m :=
      List.inj_on_of_nodup_map hnodup hm' hmem hname.symm
    exact harity (heq ▸ hnum)
  · intro m' hm' hmatch'
    rw [registeredTests_run s p hv hss]
    exact List.mem_map_of_mem _ (List.mem_filter.mpr ⟨hm', hmatch'⟩)
  · intro htd
    rw [htr]
    simp [runSpec, suiteDefer, htd]

/-- Witness for C4 at the `SuiteWithBadSignature` fixture. -/
theorem bad_signature_fails_one_subunit_w :
    (⟨"TestSomethingWithBadSignature", 2⟩ : Method).numIn ≠ 1 ∧
    Event.fatalIn "TestSomethingWithBadSignature"
      ("suite: too many arguments to method " ++
        "TestSomethingWithBadSignature") ∈ runTrace badSigSuite defaultPattern :=
  ⟨by decide,
    (bad_signature_fails_one_subunit badSigSuite defaultPattern
      ⟨"TestSomethingWithBadSignature", 2⟩ (by decide) (by decide) (by decide)
      (by decide) (by decide) (by decide) (by decide) (by decide)).1⟩

/-- C5: at every step of any run, per-test events execute under the
per-test handle of their own subtest, suite-level events under the
suite-level handle, a fresh per-test handle is only installed starting
from the suite-level one, and replaying all `SetT` writes leaves the
suite holding the suite-level handle at the end (the restoration runs
whatever aborts happened inside the per-test sequence). -/
theorem context_handle_invariant (s : SuiteSpec) (p : Pattern) :
    handleOKb Handle.suiteLevel (runTrace s p) = true ∧
    ((runTrace s p).foldl applyEvent ⟨Handle.suiteLevel⟩).T =
      Handle.suiteLevel := by
  obtain ⟨h1, h2⟩ := run_handle_ok s p
  refine ⟨h1, ?_⟩
  show ((runTrace s p).foldl applyEvent ⟨Handle.suiteLevel⟩).t = Handle.suiteLevel
  rw [foldl_applyEvent]
  exact h2

/-- C6 (counterexample): with an invalid pattern, the error is *not*
surfaced before suite-setup — `SetupSuite` appears strictly earlier in
the trace than the stderr report — and it is *not* detected on the
first method evaluated when that method lacks the "Test" prefix
(`methodFilter` returns `(false, nil)` for it, no error). -/
theorem config_error_after_setup_cex :
    methodFilter badPat "Helper" = (false, none) ∧
    runTrace cexSuite badPat =
      [Event.setT Handle.suiteLevel, Event.setupSuite,
       Event.stderrInvalidRegexp, Event.osExit 1] ∧
    Event.setupSuite ∈ runTrace cexSuite badPat ∧
    (runTrace cexSuite badPat).indexOf Event.setupSuite <
      (runTrace cexSuite badPat).indexOf Event.stderrInvalidRegexp := by
  decide

/-- C6 (amended): an invalid pattern aborts the entire run as a
process-level failure (`os.Exit(1)`); it is detected at the first
"Test"-prefixed method the loop evaluates — non-prefixed methods
produce no error — and it is surfaced *after* suite-setup has already
run. -/
theorem config_error_aborts_whole_run (s : SuiteSpec) (p : Pattern)
    (hv : p.valid = false)
    (hex : ∃ m ∈ s.methods, testPrefixed m.name = true)
    (hss : (s.hasSetupSuite && s.setupSuiteAborts) = false) :
    runExits s p = true ∧
    runTrace s p = Event.setT Handle.suiteLevel ::
      ((if s.hasSetupSuite then [Event.setupSuite] else []) ++
        [Event.stderrInvalidRegexp, Event.osExit 1]) ∧
    (∀ m ∈ s.methods, testPrefixed m.name = false →
      methodFilter p m.name = (false, none)) := by
  have h := run_invalid s p hv hex hss
  exact ⟨by simp [runExits, h], by simp [runTrace, h],
    fun m _ hp => methodFilter_not_prefixed p m.name hp⟩

/-- Witness for the amended C6 at a concrete suite and pattern. -/
theorem config_error_aborts_whole_run_w :
    badPat.valid = false ∧ runExits cexSuite badPat = true :=
  ⟨by decide,
    (config_error_aborts_whole_run cexSuite badPat (by decide)
      ⟨⟨"TestOne", 1⟩, by decide, by decide⟩ (by decide)).1⟩

/-- C7: every `BeforeTest`/`AfterTest` invocation made by `Run`
receives the static struct type name of the suite
(`reflect.TypeOf(suite).Elem().Name()`) as its first argument and the
name of a matched method as its second. -/
theorem hooks_receive_static_suite_name (s : SuiteSpec) (p : Pattern)
    (a b : String)
    (h : Event.beforeTest a b ∈ runTrace s p ∨
      Event.afterTest a b ∈ runTrace s p) :
    a = s.typeName ∧ ∃ m ∈ s.methods, m.name = b ∧ matchedb p m = true := by
  rcases h with h | h
  · rcases mem_runTrace h with h1 | h1 | h1 | h1 | h1 | ⟨m, hm, hmt, he⟩ <;>
      try simp at h1
    have hinv := List.all_eq_true.mp (closure_inv s m) _ he
    simp [closureInvb] at hinv
    exact ⟨hinv.1, m, hm, hinv.2.symm, hmt⟩
  · rcases mem_runTrace h with h1 | h1 | h1 | h1 | h1 | ⟨m, hm, hmt, he⟩ <;>
      try simp at h1
    have hinv := List.all_eq_true.mp (closure_inv s m) _ he
    simp [closureInvb] at hinv
    exact ⟨hinv.1, m, hm, hinv.2.symm, hmt⟩

/-- Witness for C7 at the `SuiteTester` fixture. -/
theorem hooks_receive_static_suite_name_w :
    Event.beforeTest "SuiteTester" "TestOne" ∈ runTrace wSuite defaultPattern ∧
    ("SuiteTester" = wSuite.typeName ∧
      ∃ m ∈ wSuite.methods, m.name = "TestOne" ∧
        matchedb defaultPattern m = true) :=
  ⟨by decide,
    hooks_receive_static_suite_name wSuite defaultPattern "SuiteTester"
      "TestOne" (Or.inl (by decide))⟩

/-- C8 (counterexample): with a skip raised in suite-setup and a
matched test method present, no sub-unit is registered or attempted:
the `Goexit` raised by `T().Skip()` ends `Run` before the method
loop starts. -/
theorem skip_in_setup_prevents_subunits_cex :
    matchedb defaultPattern ⟨"TestOne", 1⟩ = true ∧
    registeredTests (runTrace skipSuiteWithTest defaultPattern) = [] ∧
    testEvents "TestOne" (runTrace skipSuiteWithTest defaultPattern) = [] := by
  decide

/-- C8 (amended): a skip raised inside suite-setup aborts the rest of
`Run`: no test sub-unit is registered or attempted, and the deferred
restoration and suite-teardown — whose `defer` is not yet registered —
are skipped as well; the process itself does not exit. -/
theorem skip_in_setup_aborts_rest_of_run (s : SuiteSpec) (p : Pattern)
    (h : (s.hasSetupSuite && s.setupSuiteAborts) = true) :
    runTrace s p = [Event.setT Handle.suiteLevel, Event.setupSuite] ∧
    registeredTests (runTrace s p) = [] ∧
    runExits s p = false := by
  have hr := run_setup_abort s p h
  refine ⟨by simp [runTrace, hr], ?_, by simp [runExits, hr]⟩
  simp [runTrace, hr, registeredTests]

/-- Witness for the amended C8. -/
theorem skip_in_setup_aborts_rest_of_run_w :
    (skipSuiteWithTest.hasSetupSuite &&
      skipSuiteWithTest.setupSuiteAborts) = true ∧
    runTrace skipSuiteWithTest defaultPattern =
      [Event.setT Handle.suiteLevel, Event.setupSuite] :=
  ⟨by decide,
    (skip_in_setup_aborts_rest_of_run skipSuiteWithTest defaultPattern
      (by decide)).1⟩

/-- C9: a name without the "Test" prefix short-circuits `methodFilter`
to `(false, nil)` under every pattern — the pattern is never compiled
for it — so a suite none of whose methods is "Test"-prefixed completes
normally even under an invalid pattern: no process exit, and (when
suite-setup returns normally) suite-setup and suite-teardown each run
exactly once. -/
theorem non_test_names_bypass_pattern (s : SuiteSpec) (p : Pattern)
    (hall : ∀ m ∈ s.methods, testPrefixed m.name = false) :
    (∀ q : Pattern, ∀ name, testPrefixed name = false →
      methodFilter q name = (false, none)) ∧
    runExits s p = false ∧
    ((s.hasSetupSuite && s.setupSuiteAborts) = false →
      (runTrace s p).count Event.setupSuite =
        (if s.hasSetupSuite then 1 else 0) ∧
      (runTrace s p).count Event.tearDownSuite =
        (if s.hasTearDownSuite then 1 else 0)) := by
  have hloop := runLoop_no_prefixed s p s.methods hall
  refine ⟨fun q name h => methodFilter_not_prefixed q name h, ?_, ?_⟩
  · by_cases hab : (s.hasSetupSuite && s.setupSuiteAborts) = true
    · simp [runExits, run_setup_abort s p hab]
    · simp [runExits, Run, hab, hloop]
  · intro hss
    have htr : runTrace s p = Event.setT Handle.suiteLevel ::
        ((if s.hasSetupSuite then [Event.setupSuite] else []) ++
          suiteDefer s) := by
      simp [runTrace, Run, hss, hloop]
    rw [htr]
    by_cases h1 : s.hasSetupSuite <;> by_cases h2 : s.hasTearDownSuite <;>
      simp [h1, h2, suiteDefer] <;> decide

/-- Witness for C9: a suite with only non-"Test" methods under an
invalid pattern still runs both suite hooks once and does not exit. -/
theorem non_test_names_bypass_pattern_w :
    badPat.valid = false ∧
    runExits nonTestSuite badPat = false ∧
    (runTrace nonTestSuite badPat).count Event.setupSuite = 1 ∧
    (runTrace nonTestSuite badPat).count Event.tearDownSuite = 1 := by
  have h := non_test_names_bypass_pattern nonTestSuite badPat (by decide)
  exact ⟨by decide, h.2.1,
    ((h.2.2 (by decide)).1).trans (by decide),
    ((h.2.2 (by decide)).2).trans (by decide)⟩

/-- C10: when `methodFilter` reports a pattern-compilation error,
`Run` writes the error to stderr and exits the process with status 1;
on this path the deferred suite-teardown and the deferred handle
restoration never execute — the trace holds exactly one handle write,
the initial bind, and no teardown — even though suite-setup has
already run. -/
theorem config_error_exit_skips_deferred (s : SuiteSpec) (p : Pattern)
    (hv : p.valid = false)
    (hex : ∃ m ∈ s.methods, testPrefixed m.name = true)
    (hss : (s.hasSetupSuite && s.setupSuiteAborts) = false) :
    runExits s p = true ∧
    Event.stderrInvalidRegexp ∈ runTrace s p ∧
    Event.osExit 1 ∈ runTrace s p ∧
    Event.tearDownSuite ∉ runTrace s p ∧
    (runTrace s p).count (Event.setT Handle.suiteLevel) = 1 ∧
    (s.hasSetupSuite = true → Event.setupSuite ∈ runTrace s p) := by
  have h := run_invalid s p hv hex hss
  have htr : runTrace s p = Event.setT Handle.suiteLevel ::
      ((if s.hasSetupSuite then [Event.setupSuite] else []) ++
        [Event.stderrInvalidRegexp, Event.osExit 1]) := by
    simp [runTrace, h]
  refine ⟨by simp [runExits, h], ?_, ?_, ?_, ?_, ?_⟩
  · rw [htr]; by_cases h1 : s.hasSetupSuite <;> simp [h1]
  · rw [htr]; by_cases h1 : s.hasSetupSuite <;> simp [h1]
  · rw [htr]; by_cases h1 : s.hasSetupSuite <;> simp [h1]
  · rw [htr]
    by_cases h1 : s.hasSetupSuite <;> simp [h1] <;> decide
  · intro h1
    rw [htr]
    simp [h1]

/-- Witness for C10 at a concrete suite with an invalid pattern. -/
theorem config_error_exit_skips_deferred_w :
    badPat.valid = false ∧
    runExits cexSuite badPat = true ∧
    Event.tearDownSuite ∉ runTrace cexSuite badPat := by
  have h := config_error_exit_skips_deferred cexSuite badPat (by decide)
    ⟨⟨"TestOne", 1⟩, by decide, by decide⟩ (by decide)
  exact ⟨by decide, h.1, h.2.2.2.1⟩

end GoSuite
